import Mathlib

/-!
Verification of the `records` package (GBIF occurrence fetching and epoch
aggregation) against its specification.

The Python source (src/records/records.py) is shallowly embedded below:

* a pandas `DataFrame` becomes `Table` (explicit column names, an explicit row
  index, and rows of cells);
* a cell value is `Val` (an integer, a string, or the missing value NaN);
* the paged GBIF API is modelled by a finite list of stub responses (`Page`),
  handed to the fetch loop one per request;
* Python's `float` arithmetic in the diversity computation is embedded in `ℚ`
  (all quantities involved are ratios of small integers, where the two agree
  on the properties checked here);
* fallible operations (`range` with a zero step, pandas `KeyError` /
  `TypeError`, `requests.raise_for_status`) return `Except String`.
-/

deriving instance DecidableEq for Except

/-- Cell value of a table: an integer, a string, or pandas' missing value NaN. -/
inductive Val where
  | int : Int → Val
  | str : String → Val
  | nan : Val
deriving DecidableEq

/-- Whether a cell is the missing value (pandas `isna`). -/
def Val.isNan : Val → Bool
  | Val.nan => true
  | _ => false

/-- Shallow embedding of a pandas DataFrame: named columns, a row index, and
rows of cells aligned with the column list. -/
structure Table where
  cols : List String
  index : List Nat
  rows : List (List Val)
deriving DecidableEq

/-- Position of a column label in a table's column list (pandas column lookup). -/
def colIdx (t : Table) (c : String) : Option Nat :=
  t.cols.findIdx? (fun x => x = c)

/-- Remove duplicates keeping the first occurrence of each element, matching
the order of pandas `unique()` and of dict-comprehension keys. -/
def firstDedup {α : Type} [DecidableEq α] : List α → List α
  | [] => []
  | a :: t => a :: (firstDedup t).filter (fun b => b ≠ a)

/-- A raw occurrence record as returned by the API: a JSON object, i.e. a list
of field-name/value pairs. -/
abbrev Rec := List (String × Val)

/-- Embedding of `pd.DataFrame(data)` for a list of records (list of dicts):
the columns are the union of the observed field names in order of first
appearance, rows are aligned with NaN for absent fields, and the index is the
fresh 0-based range. -/
def dataFrameOfRecords (data : List Rec) : Table :=
  let cols := firstDedup ((data.map (fun r => r.map Prod.fst)).flatten)
  ⟨cols, List.range data.length,
   data.map (fun r => cols.map (fun c => (r.lookup c).getD Val.nan))⟩

/-! ### The Fetcher (`Records`) -/

/-- One stub HTTP response of the search endpoint: an HTTP status code, the
page's `"results"` list and its `"endOfRecords"` flag. -/
structure Page where
  status : Nat
  results : List Rec
  endOfRecords : Bool
deriving DecidableEq

/-- The parameter dictionary built by `Records.__init__` (the Python dict
stores every value as a string; `offset` and `limit` are kept as numbers here,
the source's `str(int(x) + 300)` round-trips through decimal notation). -/
structure RParams where
  q : String
  year : String
  basisOfRecord : String
  hasCoordinate : String
  hasGeospatialIssue : String
  country : String
  offset : Nat
  limit : Nat
deriving DecidableEq

/-- Caller-supplied `**kwargs`: each known parameter key may be overridden. -/
structure Kwargs where
  q : Option String
  year : Option String
  basisOfRecord : Option String
  hasCoordinate : Option String
  hasGeospatialIssue : Option String
  country : Option String
  offset : Option Nat
  limit : Option Nat
deriving DecidableEq

/-- Kwargs overriding nothing. -/
def noKwargs : Kwargs := ⟨none, none, none, none, none, none, none, none⟩

/-- The default parameter dictionary of `Records.__init__` (source lines
33-42), with the year interval joined as a comma-separated pair. -/
def defaultParams (q : String) (interval : Int × Int) : RParams :=
  ⟨q, toString interval.1 ++ "," ++ toString interval.2,
   "PRESERVED_SPECIMEN", "true", "false", "US", 0, 300⟩

/-- Embedding of `self.params.update(kwargs)`: overrides win on key collision. -/
def updateParams (p : RParams) (k : Kwargs) : RParams :=
  ⟨k.q.getD p.q, k.year.getD p.year, k.basisOfRecord.getD p.basisOfRecord,
   k.hasCoordinate.getD p.hasCoordinate,
   k.hasGeospatialIssue.getD p.hasGeospatialIssue,
   k.country.getD p.country, k.offset.getD p.offset, k.limit.getD p.limit⟩

/-- The parameter dictionary held by a `Records` instance after construction. -/
def recordsParams (q : String) (interval : Int × Int) (k : Kwargs) : RParams :=
  updateParams (defaultParams q interval) k

/-- Observable outcome of a completed pagination loop: the accumulated `data`
list, the `offset` parameter values sent with each request in order, and the
final value of `params["offset"]`. -/
structure FetchOut where
  data : List Rec
  offsets : List Nat
  finalOffset : Nat
deriving DecidableEq

/-- Embedding of `Records._get_all_records` (source lines 63-87) run against a
finite stub behaviour: the n-th request receives the n-th page of `pages`.
Per loop iteration the source makes the request, raises on a non-success
status (`raise_for_status`: status `>= 400` raises), advances
`params["offset"]` by the literal `300`, appends the page's `"results"`, and
breaks when `"endOfRecords"` is true. `none` means the stub list was exhausted
before the server signalled end-of-records, i.e. the `while 1` loop would keep
requesting beyond the modelled finite interaction. -/
def get_all_records (pages : List Page) (offset : Nat) :
    Option (Except String FetchOut) :=
  match pages with
  | [] => none
  | p :: rest =>
    if 400 ≤ p.status then
      some (Except.error ("HTTPError: " ++ toString p.status))
    else
      let offset' := offset + 300
      if p.endOfRecords then
        some (Except.ok ⟨p.results, [offset], offset'⟩)
      else
        match get_all_records rest offset' with
        | none => none
        | some (Except.error m) => some (Except.error m)
        | some (Except.ok r) =>
          some (Except.ok ⟨p.results ++ r.data, offset :: r.offsets, r.finalOffset⟩)

/-- Embedding of `Records.__init__` (source lines 28-48): build the parameter
dictionary, drain the stub API from the configured starting offset, and
materialize `self.df` from the accumulated record list. -/
def recordsInit (pages : List Page) (q : String) (interval : Int × Int)
    (k : Kwargs) : Option (Except String Table) :=
  match get_all_records pages (recordsParams q interval k).offset with
  | none => none
  | some (Except.error m) => some (Except.error m)
  | some (Except.ok r) => some (Except.ok (dataFrameOfRecords r.data))

/-! ### The EpochAggregator (`Epochs`) -/

/-- Number of elements of Python's `range(start, stop, step)` (CPython computes
this exact ceiling; 0 for a step of 0, which `range` itself rejects). -/
def rangeLen (start stop step : Int) : Nat :=
  if 0 < step then ((stop - start).toNat + (step.toNat - 1)) / step.toNat
  else if step < 0 then ((start - stop).toNat + ((-step).toNat - 1)) / (-step).toNat
  else 0

/-- Value list of Python's `range(start, stop, step)` for a nonzero step. -/
def pyRange (start stop step : Int) : List Int :=
  (List.range (rangeLen start stop step)).map
    (fun k : Nat => start + (k : Int) * step)

/-- Embedding of `range(start, end, epochsize)` (source line 114): Python
raises `ValueError` when the step is zero. -/
def pyRangeE (start stop step : Int) : Except String (List Int) :=
  if step = 0 then Except.error "ValueError: range() arg 3 must not be zero"
  else Except.ok (pyRange start stop step)

/-- Embedding of `df[c] = v` for a scalar `v`: overwrite the column in place if
present, otherwise append it, stamping every row. -/
def set_col (t : Table) (c : String) (v : Val) : Table :=
  match colIdx t c with
  | some j => ⟨t.cols, t.index, t.rows.map (fun r => r.set j v)⟩
  | none => ⟨t.cols ++ [c], t.index, t.rows.map (fun r => r ++ [v])⟩

/-- Embedding of `pd.concat`: columns are the union in order of first
appearance, rows are aligned with NaN for absent fields, and the per-table
indices are kept (concatenated). -/
def concatTables (ts : List Table) : Table :=
  let cols := firstDedup ((ts.map Table.cols).flatten)
  ⟨cols, (ts.map Table.index).flatten,
   (ts.map (fun t => t.rows.map (fun r => cols.map (fun c =>
      match colIdx t c with
      | some j => r.getD j Val.nan
      | none => Val.nan)))).flatten⟩

/-- Sort key of a row for `sort_values(by="year")`: the integer of the year
cell, with a missing year sorting after every integer. -/
def rowYearKey (j : Nat) (r : List Val) : Option Int :=
  match r.getD j Val.nan with
  | Val.int n => some n
  | _ => none

/-- Order on year keys: integers by value, missing years last (pandas default
`na_position="last"`). -/
def yearKeyLe : Option Int → Option Int → Bool
  | some a, some b => a ≤ b
  | some _, none => true
  | none, some _ => false
  | none, none => true

/-- Row order used by `sort_values(by="year")`, lifted to index/row pairs so
the row index is permuted together with the rows. -/
def rowLe (j : Nat) (a b : Nat × List Val) : Prop :=
  yearKeyLe (rowYearKey j a.2) (rowYearKey j b.2) = true

instance (j : Nat) : DecidableRel (rowLe j) := fun a b => by
  unfold rowLe; infer_instance

/-- Embedding of `df.sort_values(by="year")` (source line 134): `KeyError` if
the column is absent, `TypeError` if a year cell is a non-missing non-integer
(pandas cannot order mixed types), otherwise a sort of the rows (with their
index labels) that is non-decreasing on the year key with missing years last.
Ties are broken by input order here; pandas' default algorithm leaves tie
order unspecified, and no verified property depends on it. -/
def sort_values_year (t : Table) : Except String Table :=
  match colIdx t "year" with
  | none => Except.error "KeyError: year"
  | some j =>
    if t.rows.all (fun r => match r.getD j Val.nan with
        | Val.str _ => false
        | _ => true) then
      let prs := List.insertionSort (rowLe j) (t.index.zip t.rows)
      Except.ok ⟨t.cols, prs.map Prod.fst, prs.map Prod.snd⟩
    else Except.error "TypeError: unorderable year values"

/-- Embedding of `df.reset_index(drop=True)`: the old index is discarded and
replaced by the fresh contiguous 0-based sequence. -/
def reset_index (t : Table) : Table :=
  ⟨t.cols, List.range t.rows.length, t.rows⟩

/-- The dict comprehension of source lines 117-119 followed by the epoch-label
mutation of lines 122-123: one `Records` fetch per epoch start `i` over the
interval `(i, i + epochsize)`, then `df["epoch"] = i` on its table. The fetch
oracle `fetch` stands for `Records(q, interval, **kwargs).df`. -/
def epochsRDicts (fetch : Int × Int → Table) (start stop epochsize : Int) :
    List (Int × Table) :=
  (pyRange start stop epochsize).map
    (fun i => (i, set_col (fetch (i, i + epochsize)) "epoch" (Val.int i)))

/-- Embedding of `Epochs.__init__` (source lines 111-138): build the epoch
range (`ValueError` on a zero width), fetch and label one table per epoch,
and either concatenate/sort/reindex them or, when there are no epochs, leave
the empty table `pd.DataFrame([])` (no rows, no columns). -/
def epochsInit (fetch : Int × Int → Table) (start stop epochsize : Int) :
    Except String Table :=
  match pyRangeE start stop epochsize with
  | Except.error m => Except.error m
  | Except.ok epochs =>
    let rdicts := epochsRDicts fetch start stop epochsize
    if epochs.isEmpty then Except.ok ⟨[], [], []⟩
    else
      match sort_values_year (concatTables (rdicts.map Prod.snd)) with
      | Except.error m => Except.error m
      | Except.ok sorted => Except.ok (reset_index sorted)

/-! ### Simpson's diversity -/

/-- Embedding of `calculate_simpsons_diversity` (source lines 193-199): one
minus the sum, over the unique species values of the group, of the squared
proportion of individuals of that species. `arr.unique()` is `firstDedup`;
the float arithmetic of the source is carried out in `ℚ`. -/
def calculate_simpsons_diversity (arr : List Val) : ℚ :=
  1 - ((firstDedup arr).map
    (fun taxon => ((arr.count taxon : ℚ) / (arr.length : ℚ)) ^ 2)).sum

/-- Embedding of `Epochs.simpsons_diversity` (source lines 156-178): column
lookups `self.df[by]` and `self.df.species` fail on an absent column (pandas
`KeyError` / missing attribute); rows missing the grouping key or the species
are dropped; the remaining rows are grouped by the key cell and the group's
species list is fed to `calculate_simpsons_diversity`; finally exact zeros
are replaced by NaN (`data[data == 0] = np.nan`), rendered as `none`.
Group-key order here is first appearance; pandas sorts group keys, and no
verified property depends on key order. -/
def simpsons_diversity (t : Table) (key : String) :
    Except String (List (Val × Option ℚ)) :=
  match colIdx t key with
  | none => Except.error ("KeyError: " ++ key)
  | some j =>
    match colIdx t "species" with
    | none => Except.error "AttributeError: species"
    | some s =>
      let rows := t.rows.filter
        (fun r => !(r.getD j Val.nan).isNan && !(r.getD s Val.nan).isNan)
      let keys := firstDedup (rows.map (fun r => r.getD j Val.nan))
      Except.ok (keys.map (fun k =>
        let arr := (rows.filter (fun r => r.getD j Val.nan = k)).map
          (fun r => r.getD s Val.nan)
        let v := calculate_simpsons_diversity arr
        (k, if v = 0 then none else some v)))

/-- State-passing rendering of the method call `ep.simpsons_diversity(by)`:
the method only reads `self.df` — the boolean-mask selection takes a copy,
`groupby`/`apply` build the fresh series `data`, and the zero-to-NaN
assignment mutates only `data` — so the post-state table is the input table,
returned here alongside the result. -/
def simpsons_diversity_method (df : Table) (key : String) :
    Except String (Table × List (Val × Option ℚ)) :=
  match simpsons_diversity df key with
  | Except.error m => Except.error m
  | Except.ok res => Except.ok (df, res)

/-! ### CSV persistence -/

/-- A delimited flat file, modelled at the level of parsed fields: a header
line and data lines of cells (delimiter escaping is below this abstraction). -/
structure CSVFile where
  header : List String
  body : List (List Val)
deriving DecidableEq

/-- Modelled from the spec: the saving side of the round trip is pandas
`DataFrame.to_csv`, which is not part of this repository. Per spec §4.3/§6
the persisted format is a flat delimited file with a header row whose first
column is the integer row sequence number (the index, blank header cell) and
whose remaining columns are the original fields. -/
def to_csv (t : Table) : CSVFile :=
  ⟨"" :: t.cols, (t.index.zip t.rows).map (fun p => Val.int (p.1 : Int) :: p.2)⟩

/-- Modelled from the spec: `pd.read_csv(filepath, index_col=0)` (source line
189) is pandas, not repository code. The first column of each line becomes the
row index, the remaining header names and cells become the columns and rows. -/
def read_csv (f : CSVFile) : Table :=
  ⟨f.header.drop 1,
   f.body.map (fun r => match r.headD Val.nan with
     | Val.int i => i.toNat
     | _ => 0),
   f.body.map (fun r => r.drop 1)⟩

/-- Embedding of `load_epochs_from_csv` (source lines 184-190): construct the
empty `Epochs("", 0, 0, 1)` (its epoch range is empty, so no fetch happens),
then replace its `.df` by the parsed file. -/
def load_epochs_from_csv (f : CSVFile) : Except String Table :=
  match epochsInit (fun _ => dataFrameOfRecords []) 0 0 1 with
  | Except.error m => Except.error m
  | Except.ok _ => Except.ok (read_csv f)

/-! ### Helper lemmas -/

theorem mem_firstDedup {α : Type} [DecidableEq α] (x : α) :
    ∀ l : List α, x ∈ firstDedup l ↔ x ∈ l := by
  intro l
  induction l with
  | nil => simp [firstDedup]
  | cons a t ih =>
    simp only [firstDedup, List.mem_cons, List.mem_filter, ih, decide_eq_true_eq]
    constructor
    · rintro (rfl | ⟨h, _⟩)
      · exact Or.inl rfl
      · exact Or.inr h
    · rintro (rfl | h)
      · exact Or.inl rfl
      · by_cases hxa : x = a
        · exact Or.inl hxa
        · exact Or.inr ⟨h, hxa⟩

theorem nodup_firstDedup {α : Type} [DecidableEq α] :
    ∀ l : List α, (firstDedup l).Nodup := by
  intro l
  induction l with
  | nil => simp [firstDedup]
  | cons a t ih =>
    simp only [firstDedup, List.nodup_cons]
    refine ⟨fun hmem => ?_, ih.filter _⟩
    have := (List.mem_filter.mp hmem).2
    simp at this

theorem toFinset_firstDedup {α : Type} [DecidableEq α] (l : List α) :
    (firstDedup l).toFinset = l.toFinset := by
  ext x
  simp [List.mem_toFinset, mem_firstDedup]

theorem sum_map_of_nodup {α : Type} [DecidableEq α] (f : α → ℚ) :
    ∀ l : List α, l.Nodup → (l.map f).sum = ∑ x ∈ l.toFinset, f x := by
  intro l
  induction l with
  | nil => simp
  | cons a t ih =>
    intro hnd
    rw [List.nodup_cons] at hnd
    have ha : a ∉ t.toFinset := fun h => hnd.1 (List.mem_toFinset.mp h)
    simp only [List.map_cons, List.sum_cons, List.toFinset_cons,
      Finset.sum_insert ha, ih hnd.2]

theorem sum_map_firstDedup {α : Type} [DecidableEq α] (f : α → ℚ) (l : List α) :
    ((firstDedup l).map f).sum = ∑ x ∈ l.toFinset, f x := by
  rw [sum_map_of_nodup f _ (nodup_firstDedup l), toFinset_firstDedup]

theorem colIdx_eq_none {t : Table} {c : String} (h : c ∉ t.cols) :
    colIdx t c = none := by
  unfold colIdx
  rw [List.findIdx?_eq_none_iff]
  intro x hx
  simp only [decide_eq_false_iff_not]
  rintro rfl
  exact h hx

/-! ### Shared concrete inputs for witnesses and counterexamples -/

/-- Stub record fetcher: every interval yields one record collected in 1999. -/
def stubFetch : Int × Int → Table := fun _ => ⟨["year"], [0], [[Val.int 1999]]⟩

/-- Concrete grouped table: group "a" has 3 individuals of one species, group
"b" has 2 species with 2 individuals each. -/
def divTable : Table :=
  ⟨["g", "species"], [0, 1, 2, 3, 4, 5, 6],
   [[Val.str "a", Val.str "x"],
    [Val.str "a", Val.str "x"],
    [Val.str "a", Val.str "x"],
    [Val.str "b", Val.str "u"],
    [Val.str "b", Val.str "u"],
    [Val.str "b", Val.str "v"],
    [Val.str "b", Val.str "v"]]⟩

/-! ### C6, C7, C8, C10 -/

/-- C6: evaluation of the code at the failing input. A negative epoch width
with start < end is silently accepted: `range(2000, 2010, -5)` is empty, so
`Epochs.__init__` returns the empty table with no error, contradicting the
claim that zero or negative widths fail fast via an explicit guard. (A width
of 0 does fail, but only through Python's builtin `range` `ValueError`; the
code contains no explicit guard.) -/
theorem negative_width_silently_accepted :
    epochsInit stubFetch 2000 2010 (-5) = Except.ok ⟨[], [], []⟩ ∧
    epochsInit stubFetch 2000 2010 0 =
      Except.error "ValueError: range() arg 3 must not be zero" := by
  exact ⟨rfl, rfl⟩

/-- C7: calling `simpsons_diversity` with a grouping key that is not a column,
or on the empty table produced by an epoch-less aggregation (which has no
columns at all), fails with a `KeyError` naming the key rather than returning
misleading zeros. -/
theorem invalid_key_or_empty_errors (t : Table) (key : String)
    (h : key ∉ t.cols ∨ t = ⟨[], [], []⟩) :
    ∃ m, simpsons_diversity t key = Except.error m := by
  have hnone : colIdx t key = none := by
    rcases h with h | rfl
    · exact colIdx_eq_none h
    · rfl
  exact ⟨"KeyError: " ++ key, by simp [simpsons_diversity, hnone]⟩

/-- Witness for C7 at the empty table. -/
theorem invalid_key_or_empty_errors_witness :
    ∃ m, simpsons_diversity ⟨[], [], []⟩ "epoch" = Except.error m :=
  invalid_key_or_empty_errors _ _ (Or.inr rfl)

/-- C8 counterexample: with start = 2010 ≥ end = 2000 and the (silently
accepted) width -5, Python's `range(2010, 2000, -5)` counts down, yielding the
two epochs 2010 and 2005 — the construction is NOT the empty table: it has an
"epoch" column and one fetched row per epoch. -/
theorem start_ge_end_accepted_width_nonempty :
    epochsInit stubFetch 2010 2000 (-5) =
      Except.ok ⟨["year", "epoch"], [0, 1],
        [[Val.int 1999, Val.int 2010], [Val.int 1999, Val.int 2005]]⟩ ∧
    ((["year", "epoch"] : List String) ≠ [] ∧
      ([[Val.int 1999, Val.int 2010], [Val.int 1999, Val.int 2005]] :
        List (List Val)).length = 2) := by
  exact ⟨by decide, by decide⟩

/-- C8 (amended): for start ≥ end and a positive epoch width, the construction
succeeds and yields the empty table with zero rows and no columns. -/
theorem empty_range_empty_table (fetch : Int × Int → Table)
    (start stop w : Int) (hw : 0 < w) (hse : stop ≤ start) :
    epochsInit fetch start stop w = Except.ok ⟨[], [], []⟩ := by
  have hwle := Int.toNat_of_nonneg hw.le
  have hlen : rangeLen start stop w = 0 := by
    unfold rangeLen
    rw [if_pos hw]
    have hd : (stop - start).toNat = 0 := by omega
    rw [hd]
    exact Nat.div_eq_of_lt (by omega)
  unfold epochsInit pyRangeE
  rw [if_neg (by omega : ¬ w = 0)]
  simp [epochsRDicts, pyRange, hlen]

/-- Witness for C8 (amended) at a concrete empty range. -/
theorem empty_range_empty_table_witness :
    (0 : Int) < 1 ∧ (2000 : Int) ≤ 2005 ∧
    epochsInit stubFetch 2005 2000 1 = Except.ok ⟨[], [], []⟩ :=
  ⟨by decide, by decide, empty_range_empty_table stubFetch 2005 2000 1
    (by decide) (by decide)⟩

/-- C10: the diversity method leaves the instance's aggregated table unchanged
(the post-state table equals the input table), and a second call on the
post-state returns the identical result. -/
theorem method_preserves_df (df : Table) (key : String) (df' : Table)
    (res : List (Val × Option ℚ))
    (hok : simpsons_diversity_method df key = Except.ok (df', res)) :
    df' = df ∧ simpsons_diversity_method df' key = Except.ok (df', res) := by
  unfold simpsons_diversity_method at hok ⊢
  cases h : simpsons_diversity df key with
  | error m => rw [h] at hok; exact absurd hok (by simp)
  | ok r =>
    rw [h] at hok
    simp only [Except.ok.injEq, Prod.mk.injEq] at hok
    obtain ⟨hdf, hres⟩ := hok
    subst hdf
    subst hres
    exact ⟨rfl, by rw [h]⟩

section
attribute [local semireducible] Rat.add Rat.sub Rat.mul Rat.inv

/-- Witness for C10 at a concrete table. -/
theorem method_preserves_df_witness :
    divTable = divTable ∧
    simpsons_diversity_method divTable "g" =
      Except.ok (divTable,
        [(Val.str "a", none), (Val.str "b", some (Rat.divInt 1 2))]) :=
  method_preserves_df divTable "g" divTable
    [(Val.str "a", none), (Val.str "b", some (Rat.divInt 1 2))] (by decide)

end

/-! ### C1 and C4: the pagination loop -/

/-- Unfolding step of the pagination loop on a successful non-final page. -/
theorem get_all_records_cons_step (p : Page) (rest : List Page) (off : Nat)
    (h4 : ¬ 400 ≤ p.status) (he : p.endOfRecords = false) :
    get_all_records (p :: rest) off =
      match get_all_records rest (off + 300) with
      | none => none
      | some (Except.error m) => some (Except.error m)
      | some (Except.ok r) =>
        some (Except.ok ⟨p.results ++ r.data, off :: r.offsets, r.finalOffset⟩) := by
  rw [get_all_records, if_neg h4, he]
  simp

/-- Core pagination lemma: against a stub behaviour whose pages all carry a
success status, with `endOfRecords` false on every page but the last and true
on the last, the loop returns the concatenation of all result lists and sends
exactly one request per page, from any starting offset. -/
theorem get_all_records_drains :
    ∀ (pages : List Page) (off : Nat) (hne : pages ≠ []),
      (∀ p ∈ pages.dropLast, p.endOfRecords = false) →
      (pages.getLast hne).endOfRecords = true →
      (∀ p ∈ pages, p.status < 400) →
      ∃ r : FetchOut,
        get_all_records pages off = some (Except.ok r) ∧
        r.data = (pages.map Page.results).flatten ∧
        r.offsets.length = pages.length := by
  intro pages
  induction pages with
  | nil => intro off hne; exact absurd rfl hne
  | cons p rest ih =>
    intro off _ hmid hlast hst
    have hp400 : ¬ 400 ≤ p.status := by
      have := hst p (List.mem_cons_self p rest)
      omega
    cases rest with
    | nil =>
      have hpe : p.endOfRecords = true := hlast
      refine ⟨⟨p.results, [off], off + 300⟩, ?_, by simp, rfl⟩
      simp [get_all_records, hp400, hpe]
    | cons b rest' =>
      have hpe : p.endOfRecords = false := by
        apply hmid p
        simp [List.dropLast]
      have hne' : (b :: rest') ≠ [] := by simp
      have hlast' : ((b :: rest').getLast hne').endOfRecords = true := by
        rw [List.getLast_cons hne'] at hlast
        exact hlast
      have hmid' : ∀ x ∈ (b :: rest').dropLast, x.endOfRecords = false := by
        intro x hx
        apply hmid x
        simp only [List.dropLast]
        exact List.mem_cons_of_mem p hx
      obtain ⟨r, hr, hdata, hlen⟩ := ih (off + 300) hne' hmid' hlast'
        (fun x hx => hst x (List.mem_cons_of_mem p hx))
      refine ⟨⟨p.results ++ r.data, off :: r.offsets, r.finalOffset⟩, ?_, ?_, ?_⟩
      · rw [get_all_records_cons_step p (b :: rest') off hp400 hpe, hr]
      · simp [hdata]
      · simp [hlen]

/-- C1: for a finite paged behaviour of K pages (success statuses, up to 300
records per page, `endOfRecords` false on the first K-1 pages and true on the
Kth), the Fetcher issues exactly K requests, accumulates the concatenation of
the K result lists in order, and materializes a table with exactly the total
record count across all pages. -/
theorem pagination_drains_api (pages : List Page) (q : String)
    (interval : Int × Int) (hne : pages ≠ [])
    (hmid : ∀ p ∈ pages.dropLast, p.endOfRecords = false)
    (hlast : (pages.getLast hne).endOfRecords = true)
    (hst : ∀ p ∈ pages, p.status < 400)
    (hsize : ∀ p ∈ pages, p.results.length ≤ 300) :
    ∃ r : FetchOut,
      get_all_records pages (recordsParams q interval noKwargs).offset =
        some (Except.ok r) ∧
      r.data = (pages.map Page.results).flatten ∧
      r.offsets.length = pages.length ∧
      recordsInit pages q interval noKwargs =
        some (Except.ok (dataFrameOfRecords r.data)) ∧
      (dataFrameOfRecords r.data).rows.length =
        ((pages.map (fun p => p.results.length)).sum) := by
  have hoff : (recordsParams q interval noKwargs).offset = 0 := rfl
  obtain ⟨r, hr, hdata, hlen⟩ := get_all_records_drains pages 0 hne hmid hlast hst
  rw [hoff]
  refine ⟨r, hr, hdata, hlen, ?_, ?_⟩
  · unfold recordsInit
    rw [hoff, hr]
  · have hrows : (dataFrameOfRecords r.data).rows.length = r.data.length := by
      simp [dataFrameOfRecords]
    rw [hrows, hdata, List.length_flatten, List.map_map]
    rfl

/-- Offset arithmetic of the pagination loop: on a successful run the offsets
sent with successive requests form the progression off, off+300, off+600, …
(the source increments `params["offset"]` by the literal 300, line 77). -/
theorem get_all_records_offsets :
    ∀ (pages : List Page) (off : Nat) (r : FetchOut),
      get_all_records pages off = some (Except.ok r) →
      r.offsets = (List.range r.offsets.length).map (fun n => off + n * 300) := by
  intro pages
  induction pages with
  | nil => intro off r h; exact absurd h (by simp [get_all_records])
  | cons p rest ih =>
    intro off r h
    by_cases h4 : 400 ≤ p.status
    · rw [get_all_records, if_pos h4] at h
      simp at h
    · by_cases he : p.endOfRecords
      · rw [get_all_records, if_neg h4] at h
        simp only [he, if_pos] at h
        simp only [Option.some.injEq, Except.ok.injEq] at h
        subst h
        show [off] = List.map (fun n => off + n * 300) (List.range 1)
        rw [show List.range 1 = [0] from rfl]
        simp
      · have he' : p.endOfRecords = false := by simpa using he
        rw [get_all_records_cons_step p rest off h4 he'] at h
        cases hrec : get_all_records rest (off + 300) with
        | none => rw [hrec] at h; simp at h
        | some e =>
          cases e with
          | error m => rw [hrec] at h; simp at h
          | ok r' =>
            rw [hrec] at h
            simp only [Option.some.injEq, Except.ok.injEq] at h
            subst h
            have hih := ih (off + 300) r' hrec
            show off :: r'.offsets =
              List.map (fun n => off + n * 300)
                (List.range (off :: r'.offsets).length)
            simp only [List.length_cons]
            rw [List.range_succ_eq_map, List.map_cons, List.map_map]
            congr 1
            conv_lhs => rw [hih]
            congr 1
            funext n
            simp only [Function.comp_apply, Nat.succ_eq_add_one]
            omega

/-- C4 (amended): in any fetch session starting from the default offset (the
caller did not override `offset`), the offset sent with the Nth request equals
(N-1)*300 — the loop advances by the constant 300 regardless of the page-size
(`limit`) parameter in effect, and never resets mid-session. -/
theorem offset_advances_by_300 (pages : List Page) (q : String)
    (interval : Int × Int) (k : Kwargs) (r : FetchOut)
    (hoff : k.offset = none)
    (hok : get_all_records pages (recordsParams q interval k).offset =
      some (Except.ok r)) :
    (recordsParams q interval k).offset = 0 ∧
    r.offsets = (List.range r.offsets.length).map (fun n => n * 300) := by
  have h0 : (recordsParams q interval k).offset = 0 := by
    simp [recordsParams, updateParams, defaultParams, hoff]
  rw [h0] at hok
  have h := get_all_records_offsets pages 0 r hok
  exact ⟨h0, by simpa using h⟩

/-- Kwargs overriding only the page size, to 100. -/
def limitKwargs : Kwargs := ⟨none, none, none, none, none, none, none, some 100⟩

/-- First stub page: two records, more pages remain. -/
def pageW1 : Page :=
  ⟨200, [[("species", Val.str "x")], [("species", Val.str "y")]], false⟩

/-- Second stub page: one record, end of records. -/
def pageW2 : Page := ⟨200, [[("species", Val.str "z")]], true⟩

/-- C4 counterexample: with the page size overridden to 100 via `limit`, the
2nd request is sent with offset 300, not (2-1)*100 — the offset does not
advance by the page size in effect, but by the constant 300. -/
theorem offset_not_scaled_by_limit :
    (recordsParams "Bombus" (2000, 2010) limitKwargs).limit = 100 ∧
    get_all_records [pageW1, pageW2]
        (recordsParams "Bombus" (2000, 2010) limitKwargs).offset =
      some (Except.ok ⟨pageW1.results ++ pageW2.results, [0, 300], 600⟩) ∧
    (300 : Nat) ≠ (2 - 1) * 100 :=
  ⟨rfl, by decide, by decide⟩

/-- Witness for C4 (amended) at a concrete two-page session with an overridden
page size. -/
theorem offset_advances_by_300_witness :
    (recordsParams "Bombus" (2000, 2010) limitKwargs).offset = 0 ∧
    ([0, 300] : List Nat) =
      (List.range ([0, 300] : List Nat).length).map (fun n => n * 300) := by
  have h := offset_advances_by_300 [pageW1, pageW2] "Bombus" (2000, 2010)
    limitKwargs ⟨pageW1.results ++ pageW2.results, [0, 300], 600⟩ rfl (by decide)
  exact ⟨h.1, h.2⟩

/-- Witness for C1 at a concrete two-page behaviour (K = 2, 3 records). -/
theorem pagination_drains_api_witness :
    ([pageW1, pageW2] : List Page) ≠ [] ∧
    ∃ r : FetchOut,
      get_all_records [pageW1, pageW2]
          (recordsParams "Puma concolor" (1900, 1950) noKwargs).offset =
        some (Except.ok r) ∧
      r.data = (([pageW1, pageW2]).map Page.results).flatten ∧
      r.offsets.length = ([pageW1, pageW2] : List Page).length ∧
      recordsInit [pageW1, pageW2] "Puma concolor" (1900, 1950) noKwargs =
        some (Except.ok (dataFrameOfRecords r.data)) ∧
      (dataFrameOfRecords r.data).rows.length =
        (([pageW1, pageW2]).map (fun p => p.results.length)).sum :=
  ⟨by decide, pagination_drains_api [pageW1, pageW2] "Puma concolor" (1900, 1950)
    (by decide) (by decide) (by decide) (by decide) (by decide)⟩

/-! ### C2: epoch generation -/

/-- Membership arithmetic of Python's range for a positive step: the k-th
value start + k*step exists exactly when it is still strictly below stop. -/
theorem rangeLen_pos_iff (s e w : Int) (hw : 0 < w) (k : Nat) :
    k < rangeLen s e w ↔ s + k * w < e := by
  unfold rangeLen
  rw [if_pos hw]
  have hwc : ((w.toNat : Nat) : Int) = w := Int.toNat_of_nonneg hw.le
  have hw0 : 0 < w.toNat := by omega
  rw [Nat.lt_iff_add_one_le, Nat.le_div_iff_mul_le hw0, add_one_mul]
  have hkw : ((k * w.toNat : Nat) : Int) = (k : Int) * w := by
    push_cast
    rw [hwc]
  rw [show (k : Int) * w = ((k * w.toNat : Nat) : Int) from hkw.symm]
  generalize k * w.toNat = m
  omega

/-- C2: for a positive width, the generated epochs are exactly the values
start, start+width, start+2*width, … strictly below end (the k-th epoch exists
iff start + k*width < end), and the aggregator builds exactly one labelled
Fetcher table per epoch e, fetched over the interval (e, e+width) — including
the final partial epoch, whose upper bound e+width may exceed end. -/
theorem epoch_generation (s e w : Int) (hw : 0 < w)
    (fetch : Int × Int → Table) :
    ∃ n : Nat,
      pyRangeE s e w =
        Except.ok ((List.range n).map (fun k : Nat => s + (k : Int) * w)) ∧
      (∀ k : Nat, s + (k : Int) * w < e ↔ k < n) ∧
      epochsRDicts fetch s e w =
        (List.range n).map (fun k : Nat =>
          (s + (k : Int) * w,
           set_col (fetch (s + (k : Int) * w, s + (k : Int) * w + w)) "epoch"
             (Val.int (s + (k : Int) * w)))) := by
  refine ⟨rangeLen s e w, ?_, ?_, ?_⟩
  · unfold pyRangeE
    rw [if_neg hw.ne', pyRange]
  · intro k
    exact (rangeLen_pos_iff s e w hw k).symm
  · unfold epochsRDicts pyRange
    rw [List.map_map]
    rfl

/-- Witness for C2 at (2000, 2010, width 3): epochs 2000, 2003, 2006, 2009,
the last fetched over (2009, 2012) which extends past 2010. -/
theorem epoch_generation_witness :
    (0 : Int) < 3 ∧
    ∃ n : Nat,
      pyRangeE 2000 2010 3 =
        Except.ok ((List.range n).map (fun k : Nat => 2000 + (k : Int) * 3)) ∧
      (∀ k : Nat, 2000 + (k : Int) * 3 < 2010 ↔ k < n) ∧
      epochsRDicts stubFetch 2000 2010 3 =
        (List.range n).map (fun k : Nat =>
          (2000 + (k : Int) * 3,
           set_col (stubFetch (2000 + (k : Int) * 3, 2000 + (k : Int) * 3 + 3))
             "epoch" (Val.int (2000 + (k : Int) * 3)))) :=
  ⟨by decide, epoch_generation 2000 2010 3 (by decide) stubFetch⟩

/-! ### C5: merge/sort invariant -/

theorem yearKeyLe_total (a b : Option Int) :
    yearKeyLe a b = true ∨ yearKeyLe b a = true := by
  cases a <;> cases b <;> simp [yearKeyLe] <;> omega

theorem yearKeyLe_trans {a b c : Option Int} (h1 : yearKeyLe a b = true)
    (h2 : yearKeyLe b c = true) : yearKeyLe a c = true := by
  cases a <;> cases b <;> cases c <;> simp [yearKeyLe] at * <;> omega

/-- Anatomy of a successful `sort_values(by="year")`: the year column exists,
the columns are unchanged, and the output rows are pairwise non-decreasing on
the year key (missing years last). -/
theorem sort_values_year_ok {u v : Table} (h : sort_values_year u = Except.ok v) :
    ∃ j, colIdx u "year" = some j ∧ v.cols = u.cols ∧
      List.Pairwise
        (fun a b => yearKeyLe (rowYearKey j a) (rowYearKey j b) = true) v.rows := by
  unfold sort_values_year at h
  cases hj : colIdx u "year" with
  | none => rw [hj] at h; simp at h
  | some j =>
    rw [hj] at h
    have h' :
        (if (u.rows.all fun r =>
              match r.getD j Val.nan with
              | Val.str _ => false
              | _ => true) = true then
          Except.ok (⟨u.cols,
            (List.insertionSort (rowLe j) (u.index.zip u.rows)).map Prod.fst,
            (List.insertionSort (rowLe j) (u.index.zip u.rows)).map Prod.snd⟩ :
              Table)
        else Except.error "TypeError: unorderable year values") =
          Except.ok v := h
    by_cases hall : (u.rows.all fun r =>
        match r.getD j Val.nan with
        | Val.str _ => false
        | _ => true) = true
    · rw [if_pos hall] at h'
      simp only [Except.ok.injEq] at h'
      subst h'
      refine ⟨j, rfl, rfl, ?_⟩
      haveI : IsTotal (Nat × List Val) (rowLe j) :=
        ⟨fun a b => yearKeyLe_total _ _⟩
      haveI : IsTrans (Nat × List Val) (rowLe j) :=
        ⟨fun _ _ _ h1 h2 => yearKeyLe_trans h1 h2⟩
      have hs := List.sorted_insertionSort (rowLe j) (u.index.zip u.rows)
      exact List.Pairwise.map Prod.snd (fun _ _ hab => hab) hs
    · rw [if_neg hall] at h'
      simp at h'

/-- C5: when the aggregation produced at least one epoch and succeeded, the
resulting table has a year column on which its rows are non-decreasing (for
any combination of per-epoch record years), and the per-epoch row indices have
been replaced by the fresh contiguous 0-based sequence. -/
theorem aggregated_sorted_reindexed (fetch : Int × Int → Table)
    (s e w : Int) (t : Table)
    (hok : epochsInit fetch s e w = Except.ok t)
    (hne : pyRange s e w ≠ []) :
    ∃ j, colIdx t "year" = some j ∧
      List.Pairwise
        (fun a b => yearKeyLe (rowYearKey j a) (rowYearKey j b) = true) t.rows ∧
      t.index = List.range t.rows.length := by
  unfold epochsInit at hok
  by_cases hw : w = 0
  · rw [hw] at hok
    simp [pyRangeE] at hok
  · unfold pyRangeE at hok
    rw [if_neg hw] at hok
    have hok' :
        (if (pyRange s e w).isEmpty then Except.ok (⟨[], [], []⟩ : Table)
         else
           match sort_values_year (concatTables
               ((epochsRDicts fetch s e w).map Prod.snd)) with
           | Except.error m => Except.error m
           | Except.ok sorted => Except.ok (reset_index sorted)) =
          Except.ok t := hok
    cases hemp : (pyRange s e w).isEmpty with
    | true => exact absurd (List.isEmpty_iff.mp hemp) hne
    | false =>
      rw [hemp] at hok'
      simp only [Bool.false_eq_true, if_false] at hok'
      cases hs : sort_values_year (concatTables
          ((epochsRDicts fetch s e w).map Prod.snd)) with
      | error m => rw [hs] at hok'; simp at hok'
      | ok sorted =>
        rw [hs] at hok'
        simp only [Except.ok.injEq] at hok'
        subst hok'
        obtain ⟨j, hj, hcols, hpair⟩ := sort_values_year_ok hs
        refine ⟨j, ?_, hpair, rfl⟩
        show colIdx sorted "year" = some j
        unfold colIdx
        unfold colIdx at hj
        rw [hcols]
        exact hj

/-- Stub fetcher for the C5 witness: record years deliberately out of epoch
order (the 2000 epoch yields year 2005, later epochs yield year 2001). -/
def fetchW : Int × Int → Table := fun iv =>
  if iv.1 = 2000 then ⟨["year"], [0], [[Val.int 2005]]⟩
  else ⟨["year"], [0], [[Val.int 2001]]⟩

/-- The aggregated table of the C5 witness. -/
def tW : Table :=
  ⟨["year", "epoch"], [0, 1],
   [[Val.int 2001, Val.int 2005], [Val.int 2005, Val.int 2000]]⟩

/-- Witness for C5 at a concrete two-epoch aggregation. -/
theorem aggregated_sorted_reindexed_witness :
    pyRange 2000 2010 5 ≠ [] ∧
    ∃ j, colIdx tW "year" = some j ∧
      List.Pairwise
        (fun a b => yearKeyLe (rowYearKey j a) (rowYearKey j b) = true) tW.rows ∧
      tW.index = List.range tW.rows.length :=
  ⟨by decide,
   aggregated_sorted_reindexed fetchW 2000 2010 5 tW (by decide) (by decide)⟩

/-! ### C3: the diversity computation -/

/-- Spec-side Simpson's diversity index: one minus the sum, over each species
s present in the group, of (count(s)/total)^2, written as a sum over the
finite set of species values. -/
def simpson_index_spec (species : List Val) : ℚ :=
  1 - ∑ x ∈ species.toFinset,
    ((species.count x : ℚ) / (species.length : ℚ)) ^ 2

/-- The source's unique-loop accumulation computes exactly the spec-side
set-sum form of the index. -/
theorem calc_eq_spec (arr : List Val) :
    calculate_simpsons_diversity arr = simpson_index_spec arr := by
  unfold calculate_simpsons_diversity simpson_index_spec
  rw [sum_map_firstDedup]

/-- Spec-side extraction of one group's species list: the species cells of the
rows whose grouping cell equals k, among rows missing neither the grouping key
nor the species. -/
def group_species (t : Table) (j s : Nat) (k : Val) : List Val :=
  ((t.rows.filter
      (fun r => !(r.getD j Val.nan).isNan && !(r.getD s Val.nan).isNan)).filter
    (fun r => r.getD j Val.nan = k)).map (fun r => r.getD s Val.nan)

/-- C3: every reported group value equals the Simpson index of that group's
species list when the index is nonzero, and is reported as missing (`none`,
the embedded NaN) when the index is exactly zero. -/
theorem diversity_per_group (t : Table) (key : String) (j s : Nat)
    (hj : colIdx t key = some j) (hs : colIdx t "species" = some s)
    (res : List (Val × Option ℚ))
    (hres : simpsons_diversity t key = Except.ok res)
    (k : Val) (v : Option ℚ) (hmem : (k, v) ∈ res) :
    (simpson_index_spec (group_species t j s k) = 0 → v = none) ∧
    (simpson_index_spec (group_species t j s k) ≠ 0 →
      v = some (simpson_index_spec (group_species t j s k))) := by
  unfold simpsons_diversity at hres
  simp only [hj, hs] at hres
  simp only [Except.ok.injEq] at hres
  subst hres
  obtain ⟨k', hk', hfk⟩ := List.mem_map.mp hmem
  simp only [Prod.mk.injEq] at hfk
  obtain ⟨hkk, hv⟩ := hfk
  subst hkk
  subst hv
  have harr : calculate_simpsons_diversity (group_species t j s k') =
      simpson_index_spec (group_species t j s k') := calc_eq_spec _
  constructor
  · intro h0
    show (if calculate_simpsons_diversity (group_species t j s k') = 0 then
        (none : Option ℚ)
      else some (calculate_simpsons_diversity (group_species t j s k'))) = none
    rw [harr, if_pos h0]
  · intro hne
    show (if calculate_simpsons_diversity (group_species t j s k') = 0 then
        (none : Option ℚ)
      else some (calculate_simpsons_diversity (group_species t j s k'))) =
        some (simpson_index_spec (group_species t j s k'))
    rw [harr, if_neg hne]

section
attribute [local semireducible] Rat.add Rat.sub Rat.mul Rat.inv

/-- Witness for C3 at the concrete table: the all-one-species group "a"
(index exactly 0) is reported missing, and the 50/50 group "b" is reported
as 1 - (1/2)^2 - (1/2)^2 = 1/2. -/
theorem diversity_per_group_witness :
    ((simpson_index_spec (group_species divTable 0 1 (Val.str "a")) = 0 →
        (none : Option ℚ) = none) ∧
     (simpson_index_spec (group_species divTable 0 1 (Val.str "a")) ≠ 0 →
        (none : Option ℚ) =
          some (simpson_index_spec (group_species divTable 0 1 (Val.str "a"))))) ∧
    ((simpson_index_spec (group_species divTable 0 1 (Val.str "b")) = 0 →
        (some (Rat.divInt 1 2) : Option ℚ) = none) ∧
     (simpson_index_spec (group_species divTable 0 1 (Val.str "b")) ≠ 0 →
        (some (Rat.divInt 1 2) : Option ℚ) =
          some (simpson_index_spec (group_species divTable 0 1 (Val.str "b"))))) ∧
    simpson_index_spec (group_species divTable 0 1 (Val.str "a")) = 0 ∧
    simpson_index_spec (group_species divTable 0 1 (Val.str "b")) =
      Rat.divInt 1 2 :=
  ⟨diversity_per_group divTable "g" 0 1 (by decide) (by decide)
      [(Val.str "a", none), (Val.str "b", some (Rat.divInt 1 2))] (by decide)
      (Val.str "a") none (by decide),
   diversity_per_group divTable "g" 0 1 (by decide) (by decide)
      [(Val.str "a", none), (Val.str "b", some (Rat.divInt 1 2))] (by decide)
      (Val.str "b") (some (Rat.divInt 1 2)) (by decide),
   by decide, by decide⟩

end

/-! ### C9: persistence round trip -/

/-- Reading back the index column written by `to_csv` recovers the index. -/
theorem save_load_index :
    ∀ (is : List Nat) (rs : List (List Val)), is.length = rs.length →
      (((is.zip rs).map (fun p => Val.int (p.1 : Int) :: p.2)).map
        (fun r => match r.headD Val.nan with
          | Val.int i => i.toNat
          | _ => 0)) = is := by
  intro is
  induction is with
  | nil => intro rs _; simp
  | cons i is ih =>
    intro rs h
    cases rs with
    | nil => simp at h
    | cons r rs =>
      simp only [List.zip_cons_cons, List.map_cons]
      rw [ih rs (by simpa using h)]
      simp

/-- Reading back the data cells written by `to_csv` recovers the rows. -/
theorem save_load_rows :
    ∀ (is : List Nat) (rs : List (List Val)), is.length = rs.length →
      (((is.zip rs).map (fun p => Val.int (p.1 : Int) :: p.2)).map
        (fun r => r.drop 1)) = rs := by
  intro is
  induction is with
  | nil =>
    intro rs h
    cases rs with
    | nil => simp
    | cons r rs => simp at h
  | cons i is ih =>
    intro rs h
    cases rs with
    | nil => simp at h
    | cons r rs =>
      simp only [List.zip_cons_cons, List.map_cons]
      rw [ih rs (by simpa using h)]
      simp

/-- C9: saving a table in the delimited flat format (index as first column)
and reloading it through `load_epochs_from_csv` reproduces the same column
set, the same row values and the same order. -/
theorem csv_round_trip (t : Table) (hlen : t.index.length = t.rows.length) :
    load_epochs_from_csv (to_csv t) = Except.ok t := by
  unfold load_epochs_from_csv
  rw [show epochsInit (fun _ => dataFrameOfRecords []) 0 0 1 =
      Except.ok (⟨[], [], []⟩ : Table) from rfl]
  show Except.ok (read_csv (to_csv t)) = Except.ok t
  congr 1
  unfold read_csv to_csv
  cases t with
  | mk cols idx rows =>
    simp only [Table.mk.injEq]
    refine ⟨by simp, ?_, ?_⟩
    · exact save_load_index idx rows hlen
    · exact save_load_rows idx rows hlen

/-- Witness for C9 at a concrete saved aggregation. -/
theorem csv_round_trip_witness :
    tW.index.length = tW.rows.length ∧
    load_epochs_from_csv (to_csv tW) = Except.ok tW :=
  ⟨by decide, csv_round_trip tW (by decide)⟩
